import Mathlib

/-!
Shallow embedding of `i.rescale.rgb.py` (mundialis/i.rescale.rgb), a GRASS GIS
orchestration script that rescales three raster bands for RGB visualization.

The script's observable behaviour is modelled as a pure function from its
option values and an environment (the percentile-query answers of the external
engine and the process id) to either a fatal/run error or a trace of external
engine invocations together with the cleanup-registration list and the final
group member list.  The two raster-algebra expressions the script builds are
modelled both at the string level (exactly the text the script submits) and at
the value level over ℚ (the per-cell arithmetic the submitted expression
denotes).
-/

deriving instance DecidableEq for Except

namespace IRescaleRGB

/-- Auxiliary recursion for `pySplit`: walk the characters, cutting at every
occurrence of the separator and keeping empty fields. -/
def pySplitAux (sep : Char) : List Char → List Char → List (List Char)
  | [], acc => [acc.reverse]
  | c :: rest, acc =>
    if c = sep then acc.reverse :: pySplitAux sep rest []
    else pySplitAux sep rest (c :: acc)

/-- Model of Python `s.split(sep)` for a one-character separator: split at
every occurrence of `sep`, keeping empty fields (the result is never the
empty list). -/
def pySplit (sep : Char) (s : String) : List String :=
  (pySplitAux sep s.toList []).map List.asString

/-- ASCII whitespace stripped by Python `int()` before parsing. -/
def isPySpace (c : Char) : Bool :=
  c = ' ' ∨ c = '\t' ∨ c = '\n' ∨ c = '\r' ∨ c = '\x0b' ∨ c = '\x0c'

/-- Model of Python `int(s)` on decimal string literals: optional surrounding
whitespace, an optional sign, then a nonempty run of decimal digits. -/
def pyInt? (s : String) : Option Int :=
  let cs := ((s.toList.dropWhile isPySpace).reverse.dropWhile isPySpace).reverse
  match cs with
  | [] => none
  | c :: rest =>
    let signed : Bool × List Char :=
      if c = '-' then (true, rest)
      else if c = '+' then (false, rest)
      else (false, cs)
    let digits := signed.2
    if digits ≠ [] ∧ digits.all Char.isDigit then
      let n : Nat := digits.foldl (fun acc d => acc * 10 + (d.toNat - 48)) 0
      some (if signed.1 then -(n : Int) else (n : Int))
    else none

/-- Model of Python `s.split(":")[-1]`: the substring after the last colon
(`split` never returns an empty list, so `[-1]` is total). -/
def lastAfterColon (s : String) : String :=
  (pySplit ':' s).getLastD ""

/-- The fatal, user-facing validation errors raised via `grass.fatal`. -/
inductive FatalError where
  | tooFewBands
  | invertedRange (lower upper : Int)
  | badRangeFormat
deriving DecidableEq, Repr

/-- How a run of `main` can terminate abnormally: a user-facing fatal error, or
an uncaught Python exception (out-of-range indexing / `None` index). -/
inductive RunError where
  | fatal (e : FatalError)
  | pythonError
deriving DecidableEq, Repr

/-- External engine invocations and cleanup-list registrations, in program
order.  `register` is the append to the global `rm_rasters` list (not an
external call, but logged so that its position relative to the engine calls is
part of the model). -/
inductive Event where
  | quantile (input percentiles : String)
  | register (name : String)
  | mapcalc (expression : String)
  | copy (src dst : String)
  | remove (name : String)
  | group (name : String) (members : List String)
  | message (text : String)
deriving DecidableEq, Repr

/-- The option values read at the top of `main` (all strings, as GRASS's
parser hands them over). -/
structure Options where
  red : String
  green : String
  blue : String
  lower_percentile : String
  upper_percentile : String
  suffix : String
  output : String
  output_range : String
deriving DecidableEq, Repr

/-- The environment of a run: for each raster name, the ordered keys of the
parsed `r.quantile` output, and the process id `os.getpid()` as a string. -/
structure Env where
  quantileKeys : String → List String
  pid : String

/-- Model of the `output_range` validation block (lines 119–135): split on
`,`, fetch items 0 and 1 (an `IndexError` is caught and reported as the
format error), convert both with `int` (a failure is likewise the format
error), and reject an inverted range with a message citing both values.  On
success the raw token strings are returned, since the script splices the
strings — not the parsed integers — into the rescale expression. -/
def checkOutputRange (s : String) : Except FatalError (String × String) :=
  match pySplit ',' s with
  | lower :: upper :: _ =>
    match pyInt? lower, pyInt? upper with
    | some lo, some up =>
      if up < lo then .error (.invertedRange lo up)
      else .ok (lower, upper)
    | _, _ => .error .badRangeFormat
  | _ => .error .badRangeFormat

/-- Name of the rescaled raster: `"%s_%s" % (rast, suffix)`. -/
def rescaledName (rast suffix : String) : String :=
  rast ++ "_" ++ suffix

/-- Name of the temporary clamped raster: `"%s_tmp_%s" % (rast, os.getpid())`. -/
def tmpName (rast pid : String) : String :=
  rast ++ "_tmp_" ++ pid

/-- The clamp expression submitted to `r.mapcalc` (lines 155–165), built by
splicing the raw threshold strings into the template
`%(out)s = if(%(in)s <= %(lower_in)s, %(lower_in)s,if(%(in)s >= %(upper_in)s, %(upper_in)s,%(in)s))`. -/
def clampExpr (out inp lower_in upper_in : String) : String :=
  out ++ " = if(" ++ inp ++ " <= " ++ lower_in ++ ", " ++ lower_in ++
    ",if(" ++ inp ++ " >= " ++ upper_in ++ ", " ++ upper_in ++ "," ++ inp ++ "))"

/-- The core rescale expression (lines 168–179), built by splicing the raw
threshold and output-range strings into the template
`((%(in)s - %(lower_in)s)/(%(upper_in)s - %(lower_in)s)) * %(upper_out)s + %(lower_out)s`. -/
def rescExprCore (inp lower_in upper_in upper_out lower_out : String) : String :=
  "((" ++ inp ++ " - " ++ lower_in ++ ")/(" ++ upper_in ++ " - " ++ lower_in ++
    ")) * " ++ upper_out ++ " + " ++ lower_out

/-- The right-hand side of the rescale command: the core expression, wrapped in
`round(...)` exactly when the `-f` flag is unset (lines 180–183). -/
def rescRhs (fflag : Bool) (core : String) : String :=
  if fflag then core else "round(" ++ core ++ ")"

/-- State threaded through the `for rast in rgb_in` loop: events so far, the
global `rm_rasters`, and `reclassified_rasters`. -/
structure LoopState where
  events : List Event
  rmRasters : List String
  reclassified : List String
deriving DecidableEq, Repr

/-- One iteration of the per-band loop (lines 139–188).  A band whose rescaled
name was already produced is skipped (only the trailing append runs).
Otherwise: query the two percentiles, take the substrings after the last `:`
of the first two returned keys (fewer than two keys would raise an uncaught
`IndexError`), register the temporary name on `rm_rasters`, submit the clamp
expression, then submit the rescale expression. -/
def processBand (env : Env) (opts : Options) (lower_out upper_out : String)
    (fflag : Bool) (st : LoopState) (rast : String) :
    Except (List Event × RunError) LoopState :=
  let rescaled := rescaledName rast opts.suffix
  if rescaled ∈ st.reclassified then
    .ok { st with reclassified := st.reclassified ++ [rescaled] }
  else
    let vals := env.quantileKeys rast
    let qEv := Event.quantile rast (opts.lower_percentile ++ "," ++ opts.upper_percentile)
    if vals.length < 2 then
      .error (st.events ++ [qEv], .pythonError)
    else
      let lower_in := lastAfterColon (vals.getD 0 "")
      let upper_in := lastAfterColon (vals.getD 1 "")
      let tmp := tmpName rast env.pid
      let cexpr := clampExpr tmp rast lower_in upper_in
      let core := rescExprCore tmp lower_in upper_in upper_out lower_out
      let rexpr := rescaled ++ " = " ++ rescRhs fflag core
      .ok { events := st.events ++ [qEv, .register tmp, .mapcalc cexpr, .mapcalc rexpr],
            rmRasters := st.rmRasters ++ [tmp],
            reclassified := st.reclassified ++ [rescaled] }

/-- The per-band loop over the given raster list. -/
def runBands (env : Env) (opts : Options) (lower_out upper_out : String)
    (fflag : Bool) : List String → LoopState → Except (List Event × RunError) LoopState
  | [], st => .ok st
  | rast :: rest, st =>
    match processBand env opts lower_out upper_out fflag st rast with
    | .error e => .error e
    | .ok st2 => runBands env opts lower_out upper_out fflag rest st2

/-- Auxiliary loop of the duplicate search (lines 192–200): walk the list with
an accumulated `unique_rasters`; each value already seen overwrites
`dupl_index` with its index. -/
def findDuplAux (uniq : List String) (dup : Option Nat) (idx : Nat) :
    List String → Option Nat
  | [] => dup
  | v :: rest =>
    if v ∈ uniq then findDuplAux uniq (some idx) (idx + 1) rest
    else findDuplAux (uniq ++ [v]) dup (idx + 1) rest

/-- Index of the (final) duplicate occurrence, `None` when all entries are
distinct. -/
def findDuplIndex (l : List String) : Option Nat :=
  findDuplAux [] none 0 l

/-- Duplicate reconciliation (lines 191–206): when the rescaled names have
exactly 2 distinct members, locate the duplicate occurrence, copy that raster
under the name with suffix `_copied` via `g.copy`, and substitute the copy's
name at the duplicate index.  A `None` duplicate index would raise an uncaught
`TypeError` in Python. -/
def reconcile (l : List String) : Except RunError (List Event × List String) :=
  if l.dedup.length = 2 then
    match findDuplIndex l with
    | none => .error .pythonError
    | some i =>
      let dup := l.getD i ""
      let copied := dup ++ "_copied"
      .ok ([.copy dup copied], l.set i copied)
  else .ok ([], l)

/-- Outcome of a successful run: the full event trace, the final `rm_rasters`
cleanup list, and the member list submitted to `i.group`. -/
structure RunResult where
  events : List Event
  rmRasters : List String
  groupMembers : List String
deriving DecidableEq, Repr

/-- Shallow embedding of `main` (lines 103–210).  Checks that at least two of
the three band names differ, validates `output_range`, runs the per-band loop
over `[red, green, blue]`, reconciles a duplicated rescaled name by copying it
under the suffix `_copied` (lines 191–206), and submits the final list to
`i.group`.  Errors carry the events emitted before termination. -/
def mainRun (env : Env) (opts : Options) (fflag : Bool) :
    Except (List Event × RunError) RunResult :=
  let rgb_in := [opts.red, opts.green, opts.blue]
  if rgb_in.dedup.length < 2 then
    .error ([], .fatal .tooFewBands)
  else
    match checkOutputRange opts.output_range with
    | .error e => .error ([], .fatal e)
    | .ok (lower_out, upper_out) =>
      match runBands env opts lower_out upper_out fflag rgb_in ⟨[], [], []⟩ with
      | .error e => .error e
      | .ok st =>
        match reconcile st.reclassified with
        | .error e => .error (st.events, e)
        | .ok (copyEvents, final) =>
          .ok { events := st.events ++ copyEvents ++ [.group opts.output final,
                  .message ("Created output group <" ++ opts.output ++ ">")],
                rmRasters := st.rmRasters,
                groupMembers := final }

/-- Shallow embedding of `cleanup` (lines 95–100): walk the registered list in
order; a name for which `grass.find_file` reports an existing raster is removed
with `g.remove`, any other name is silently skipped. -/
def cleanup (find_file : String → Bool) : List String → List Event
  | [] => []
  | r :: rest =>
    if find_file r then Event.remove r :: cleanup find_file rest
    else cleanup find_file rest

/-- Per-cell denotation, over ℚ, of the clamp expression
`if(x <= lower_in, lower_in, if(x >= upper_in, upper_in, x))`. -/
def clampVal (lower_in upper_in x : ℚ) : ℚ :=
  if x ≤ lower_in then lower_in
  else if x ≥ upper_in then upper_in
  else x

/-- Per-cell denotation, over ℚ, of the core rescale expression
`((x - lower_in)/(upper_in - lower_in)) * upper_out + lower_out`. -/
def rescaleVal (lower_in upper_in lower_out upper_out x : ℚ) : ℚ :=
  ((x - lower_in) / (upper_in - lower_in)) * upper_out + lower_out

/-- Per-cell denotation of the full rescale command applied to an already
clamped value: the core expression, rounded to the nearest integer exactly
when the `-f` flag is unset. -/
def storedVal (fflag : Bool) (lower_in upper_in lower_out upper_out x : ℚ) : ℚ :=
  if fflag then rescaleVal lower_in upper_in lower_out upper_out x
  else ((round (rescaleVal lower_in upper_in lower_out upper_out x) : ℤ) : ℚ)

/-- Example environment: every percentile query answers with two keys whose
after-colon values are `10` and `110`; the process id is `77`. -/
def egEnv : Env :=
  ⟨fun _ => ["percentile 2:10", "percentile 98:110"], "77"⟩

/-- Example options: three distinct band names, default percentiles, suffix
`s`, output range `0,255`. -/
def egOpts : Options :=
  ⟨"r", "g", "b", "2", "98", "s", "out", "0,255"⟩

theorem processBand_events_extend {env : Env} {opts : Options}
    {lower_out upper_out : String} {fflag : Bool} {st : LoopState} {rast : String}
    {st2 : LoopState} (h : processBand env opts lower_out upper_out fflag st rast = .ok st2) :
    ∃ t, st2.events = st.events ++ t := by
  simp only [processBand] at h
  by_cases hmem : rescaledName rast opts.suffix ∈ st.reclassified
  · rw [if_pos hmem] at h
    cases h
    exact ⟨[], by simp⟩
  · rw [if_neg hmem] at h
    by_cases hlen : (env.quantileKeys rast).length < 2
    · rw [if_pos hlen] at h
      cases h
    · rw [if_neg hlen] at h
      cases h
      exact ⟨_, rfl⟩

theorem runBands_cons {env : Env} {opts : Options} {lower_out upper_out : String}
    {fflag : Bool} {rast : String} {rest : List String} {st st1 : LoopState}
    (hp : processBand env opts lower_out upper_out fflag st rast = .ok st1) :
    runBands env opts lower_out upper_out fflag (rast :: rest) st =
      runBands env opts lower_out upper_out fflag rest st1 := by
  simp only [runBands, hp]

theorem runBands_events_extend {env : Env} {opts : Options}
    {lower_out upper_out : String} {fflag : Bool} (l : List String) :
    ∀ st st2, runBands env opts lower_out upper_out fflag l st = .ok st2 →
      ∃ t, st2.events = st.events ++ t := by
  induction l with
  | nil =>
    intro st st2 h
    simp only [runBands] at h
    cases h
    exact ⟨[], by simp⟩
  | cons rast rest ih =>
    intro st st2 h
    simp only [runBands] at h
    cases hp : processBand env opts lower_out upper_out fflag st rast with
    | error e => rw [hp] at h; cases h
    | ok st1 =>
      rw [hp] at h
      obtain ⟨t1, h1⟩ := processBand_events_extend hp
      obtain ⟨t2, h2⟩ := ih st1 st2 h
      exact ⟨t1 ++ t2, by rw [h2, h1, List.append_assoc]⟩

/-- Invariant threaded through the band loop: every name on the cleanup list
has the temporary-name shape for one of the given bands, and its registration
event is immediately followed by the `r.mapcalc` call that creates it. -/
def tmpInvariant (bands : List String) (pid : String) (st : LoopState) : Prop :=
  ∀ n ∈ st.rmRasters, ∃ rast li ui s t, rast ∈ bands ∧ n = tmpName rast pid ∧
    st.events = s ++ [Event.register n, Event.mapcalc (clampExpr n rast li ui)] ++ t

theorem processBand_tmpInvariant {env : Env} {opts : Options}
    {lower_out upper_out : String} {fflag : Bool} {st : LoopState} {rast : String}
    {st2 : LoopState} {bands : List String} (hb : rast ∈ bands)
    (hinv : tmpInvariant bands env.pid st)
    (h : processBand env opts lower_out upper_out fflag st rast = .ok st2) :
    tmpInvariant bands env.pid st2 := by
  simp only [processBand] at h
  by_cases hmem : rescaledName rast opts.suffix ∈ st.reclassified
  · rw [if_pos hmem] at h
    cases h
    exact hinv
  · rw [if_neg hmem] at h
    by_cases hlen : (env.quantileKeys rast).length < 2
    · rw [if_pos hlen] at h
      cases h
    · rw [if_neg hlen] at h
      cases h
      intro n hn
      simp only [List.mem_append, List.mem_singleton] at hn
      rcases hn with hn | hn
      · obtain ⟨rast0, li, ui, s, t, hr, he, hev⟩ := hinv n hn
        exact ⟨rast0, li, ui, s,
          t ++ [Event.quantile rast (opts.lower_percentile ++ "," ++ opts.upper_percentile),
            Event.register (tmpName rast env.pid),
            Event.mapcalc (clampExpr (tmpName rast env.pid) rast
              (lastAfterColon ((env.quantileKeys rast).getD 0 ""))
              (lastAfterColon ((env.quantileKeys rast).getD 1 ""))),
            Event.mapcalc (rescaledName rast opts.suffix ++ " = " ++ rescRhs fflag
              (rescExprCore (tmpName rast env.pid)
                (lastAfterColon ((env.quantileKeys rast).getD 0 ""))
                (lastAfterColon ((env.quantileKeys rast).getD 1 ""))
                upper_out lower_out))],
          hr, he, by simp [hev]⟩
      · subst hn
        exact ⟨rast, lastAfterColon ((env.quantileKeys rast).getD 0 ""),
          lastAfterColon ((env.quantileKeys rast).getD 1 ""),
          st.events ++ [Event.quantile rast
            (opts.lower_percentile ++ "," ++ opts.upper_percentile)],
          [Event.mapcalc (rescaledName rast opts.suffix ++ " = " ++ rescRhs fflag
            (rescExprCore (tmpName rast env.pid)
              (lastAfterColon ((env.quantileKeys rast).getD 0 ""))
              (lastAfterColon ((env.quantileKeys rast).getD 1 ""))
              upper_out lower_out))],
          hb, rfl, by simp⟩

theorem runBands_tmpInvariant {env : Env} {opts : Options}
    {lower_out upper_out : String} {fflag : Bool} {bands : List String}
    (l : List String) (hl : ∀ x ∈ l, x ∈ bands) :
    ∀ st st2, runBands env opts lower_out upper_out fflag l st = .ok st2 →
      tmpInvariant bands env.pid st → tmpInvariant bands env.pid st2 := by
  induction l with
  | nil =>
    intro st st2 h hinv
    simp only [runBands] at h
    cases h
    exact hinv
  | cons rast rest ih =>
    intro st st2 h hinv
    simp only [runBands] at h
    cases hp : processBand env opts lower_out upper_out fflag st rast with
    | error e => rw [hp] at h; cases h
    | ok st1 =>
      rw [hp] at h
      have hinv1 := processBand_tmpInvariant (hl rast (by simp)) hinv hp
      exact ih (fun x hx => hl x (by simp [hx])) st1 st2 h hinv1

theorem processBand_reclassified_length {env : Env} {opts : Options}
    {lower_out upper_out : String} {fflag : Bool} {st : LoopState} {rast : String}
    {st2 : LoopState} (h : processBand env opts lower_out upper_out fflag st rast = .ok st2) :
    st2.reclassified.length = st.reclassified.length + 1 := by
  simp only [processBand] at h
  by_cases hmem : rescaledName rast opts.suffix ∈ st.reclassified
  · rw [if_pos hmem] at h
    cases h
    simp
  · rw [if_neg hmem] at h
    by_cases hlen : (env.quantileKeys rast).length < 2
    · rw [if_pos hlen] at h
      cases h
    · rw [if_neg hlen] at h
      cases h
      simp

theorem runBands_reclassified_length {env : Env} {opts : Options}
    {lower_out upper_out : String} {fflag : Bool} (l : List String) :
    ∀ st st2, runBands env opts lower_out upper_out fflag l st = .ok st2 →
      st2.reclassified.length = st.reclassified.length + l.length := by
  induction l with
  | nil =>
    intro st st2 h
    simp only [runBands] at h
    cases h
    simp
  | cons rast rest ih =>
    intro st st2 h
    simp only [runBands] at h
    cases hp : processBand env opts lower_out upper_out fflag st rast with
    | error e => rw [hp] at h; cases h
    | ok st1 =>
      rw [hp] at h
      have h1 := processBand_reclassified_length hp
      have h2 := ih st1 st2 h
      rw [h2, h1]
      simp
      omega

/-- Decomposition of a successful run into its phases: range validation
succeeded, the band loop succeeded, reconciliation succeeded, and the final
trace is the loop trace followed by the copy events, the `i.group` call and
the closing message. -/
theorem mainRun_ok_decomp {env : Env} {opts : Options} {fflag : Bool} {r : RunResult}
    (h : mainRun env opts fflag = .ok r) :
    ¬ [opts.red, opts.green, opts.blue].dedup.length < 2 ∧
    ∃ lower_out upper_out st copyEvents,
      checkOutputRange opts.output_range = .ok (lower_out, upper_out) ∧
      runBands env opts lower_out upper_out fflag
        [opts.red, opts.green, opts.blue] ⟨[], [], []⟩ = .ok st ∧
      reconcile st.reclassified = .ok (copyEvents, r.groupMembers) ∧
      r.events = st.events ++ copyEvents ++ [Event.group opts.output r.groupMembers,
        Event.message ("Created output group <" ++ opts.output ++ ">")] ∧
      r.rmRasters = st.rmRasters := by
  simp only [mainRun] at h
  by_cases hlen : [opts.red, opts.green, opts.blue].dedup.length < 2
  · rw [if_pos hlen] at h
    cases h
  · rw [if_neg hlen] at h
    refine ⟨hlen, ?_⟩
    cases hrange : checkOutputRange opts.output_range with
    | error e => rw [hrange] at h; cases h
    | ok p =>
      rw [hrange] at h
      obtain ⟨lower_out, upper_out⟩ := p
      dsimp only at h
      cases hrun : runBands env opts lower_out upper_out fflag
          [opts.red, opts.green, opts.blue] ⟨[], [], []⟩ with
      | error e => rw [hrun] at h; cases h
      | ok st =>
        rw [hrun] at h
        dsimp only at h
        cases hrec : reconcile st.reclassified with
        | error e => rw [hrec] at h; cases h
        | ok p2 =>
          rw [hrec] at h
          obtain ⟨copyEvents, final⟩ := p2
          dsimp only at h
          cases h
          exact ⟨lower_out, upper_out, st, copyEvents, rfl, hrun, hrec, rfl, rfl⟩

/-- The first band of the loop is never skipped (the produced-names list is
still empty), so on any successful run with at least two percentile keys for
the red band, the clamp command and the rescale command built from the red
band's raw threshold substrings are both in the trace. -/
theorem mainRun_red_events {env : Env} {opts : Options} {fflag : Bool} {r : RunResult}
    (h : mainRun env opts fflag = .ok r)
    (hk : ¬ (env.quantileKeys opts.red).length < 2) :
    ∃ lower_out upper_out,
      checkOutputRange opts.output_range = .ok (lower_out, upper_out) ∧
      Event.mapcalc (clampExpr (tmpName opts.red env.pid) opts.red
        (lastAfterColon ((env.quantileKeys opts.red).getD 0 ""))
        (lastAfterColon ((env.quantileKeys opts.red).getD 1 ""))) ∈ r.events ∧
      Event.mapcalc (rescaledName opts.red opts.suffix ++ " = " ++ rescRhs fflag
        (rescExprCore (tmpName opts.red env.pid)
          (lastAfterColon ((env.quantileKeys opts.red).getD 0 ""))
          (lastAfterColon ((env.quantileKeys opts.red).getD 1 ""))
          upper_out lower_out)) ∈ r.events := by
  obtain ⟨-, lower_out, upper_out, st, copyEvents, hrange, hrun, -, hev, -⟩ :=
    mainRun_ok_decomp h
  refine ⟨lower_out, upper_out, hrange, ?_⟩
  have hpb : processBand env opts lower_out upper_out fflag ⟨[], [], []⟩ opts.red =
      .ok ⟨[Event.quantile opts.red (opts.lower_percentile ++ "," ++ opts.upper_percentile),
        Event.register (tmpName opts.red env.pid),
        Event.mapcalc (clampExpr (tmpName opts.red env.pid) opts.red
          (lastAfterColon ((env.quantileKeys opts.red).getD 0 ""))
          (lastAfterColon ((env.quantileKeys opts.red).getD 1 ""))),
        Event.mapcalc (rescaledName opts.red opts.suffix ++ " = " ++ rescRhs fflag
          (rescExprCore (tmpName opts.red env.pid)
            (lastAfterColon ((env.quantileKeys opts.red).getD 0 ""))
            (lastAfterColon ((env.quantileKeys opts.red).getD 1 ""))
            upper_out lower_out))],
        [tmpName opts.red env.pid], [rescaledName opts.red opts.suffix]⟩ := by
    simp only [processBand, List.not_mem_nil, if_false, if_neg hk]
    rfl
  rw [runBands_cons hpb] at hrun
  obtain ⟨t, ht⟩ := runBands_events_extend _ _ _ hrun
  rw [hev, ht]
  constructor
  · simp
  · simp

/-- C1: the claim says the code maps `[lower_in, upper_in]` onto
`[lower_out, upper_out]` with `upper_in ↦ upper_out` for every
`lower_out ≤ upper_out`, not only `lower_out = 0`.  The code's formula
`((x - lower_in)/(upper_in - lower_in)) * upper_out + lower_out` sends
`upper_in` to `upper_out + lower_out` instead: with thresholds 10/110 and
output range `100,200`, the clamped value 110 is stored as 300, outside the
requested range — contradicting the module's own `<min,max>` documentation of
`output_range`.  The last conjunct exhibits the submitted expression text
(`* 200 + 100`) on a run with that range. -/
theorem C1_upper_in_maps_to_sum :
    rescaleVal 10 110 100 200 110 = 300 ∧ (300 : ℚ) ≠ 200 ∧
    rescaleVal 10 110 100 200 10 = 100 ∧
    (∀ lower_in upper_in lower_out upper_out : ℚ, upper_in ≠ lower_in →
      rescaleVal lower_in upper_in lower_out upper_out upper_in =
        upper_out + lower_out) ∧
    (∃ r, mainRun egEnv ⟨"r", "g", "b", "2", "98", "s", "out", "100,200"⟩ false = .ok r ∧
      Event.mapcalc "r_s = round(((r_tmp_77 - 10)/(110 - 10)) * 200 + 100)" ∈ r.events) := by
  refine ⟨by norm_num [rescaleVal], by norm_num, by norm_num [rescaleVal], ?_, ⟨_, by rfl, by decide⟩⟩
  intro lower_in upper_in lower_out upper_out hne
  unfold rescaleVal
  rw [div_self (sub_ne_zero.mpr hne), one_mul]

/-- C1 witness: the general conjunct applied at thresholds 0/1 and output
range `7,9`. -/
theorem C1_upper_in_maps_to_sum_witness :
    rescaleVal 0 1 7 9 1 = 9 + 7 :=
  C1_upper_in_maps_to_sum.2.2.2.1 0 1 7 9 (by norm_num)

/-- C4: the rescale command stores
`((clamped - lower_in)/(upper_in - lower_in)) * upper_out + lower_out`,
wrapped in `round(...)` exactly when the `-f` flag is unset (first two
conjuncts exhibit the submitted expression with the flag off and on), and for
thresholds 10/110 with range `0,255`: 10 ↦ 0, 110 ↦ 255, 5 clamps to 10 then
0, 200 clamps to 110 then 255, and an intermediate value such as 60 follows
the linear formula rounded to the nearest integer (127.5 ↦ 128). -/
theorem C4_linear_rescale :
    (∃ r, mainRun egEnv egOpts false = .ok r ∧
      Event.mapcalc "r_s = round(((r_tmp_77 - 10)/(110 - 10)) * 255 + 0)" ∈ r.events) ∧
    (∃ r, mainRun egEnv egOpts true = .ok r ∧
      Event.mapcalc "r_s = ((r_tmp_77 - 10)/(110 - 10)) * 255 + 0" ∈ r.events) ∧
    storedVal false 10 110 0 255 (clampVal 10 110 10) = 0 ∧
    storedVal false 10 110 0 255 (clampVal 10 110 110) = 255 ∧
    storedVal false 10 110 0 255 (clampVal 10 110 5) = 0 ∧
    storedVal false 10 110 0 255 (clampVal 10 110 200) = 255 ∧
    storedVal false 10 110 0 255 (clampVal 10 110 60) = 128 ∧
    (∀ x : ℚ, storedVal false 10 110 0 255 x =
      ((round (((x - 10) / (110 - 10)) * 255 + 0) : ℤ) : ℚ)) ∧
    (∀ x : ℚ, storedVal true 10 110 0 255 x = ((x - 10) / (110 - 10)) * 255 + 0) := by
  refine ⟨⟨_, by rfl, by decide⟩, ⟨_, by rfl, by decide⟩, ?_, ?_, ?_, ?_, ?_, ?_, ?_⟩
  · norm_num [storedVal, clampVal, rescaleVal, round_eq]
  · norm_num [storedVal, clampVal, rescaleVal, round_eq]
  · norm_num [storedVal, clampVal, rescaleVal, round_eq]
  · norm_num [storedVal, clampVal, rescaleVal, round_eq]
  · norm_num [storedVal, clampVal, rescaleVal, round_eq]
  · intro x; simp [storedVal, rescaleVal]
  · intro x; simp [storedVal, rescaleVal]

/-- C4 witness: the value-level formula applied at 60. -/
theorem C4_linear_rescale_witness :
    storedVal false 10 110 0 255 60 =
      ((round ((((60 : ℚ) - 10) / (110 - 10)) * 255 + 0) : ℤ) : ℚ) :=
  C4_linear_rescale.2.2.2.2.2.2.2.1 60

/-- C5: the clamp expression computes
`if(x <= lower_in, lower_in, if(x >= upper_in, upper_in, x))`, which for
`lower_in ≤ upper_in` is the clamp of the original value to
`[lower_in, upper_in]`; the second group exhibits the clamp command text
submitted on the example run. -/
theorem C5_clamp_semantics :
    (∀ lower_in upper_in x : ℚ, lower_in ≤ upper_in →
      clampVal lower_in upper_in x = max lower_in (min x upper_in) ∧
      (x ≤ lower_in → clampVal lower_in upper_in x = lower_in) ∧
      (upper_in ≤ x → clampVal lower_in upper_in x = upper_in) ∧
      (lower_in < x → x < upper_in → clampVal lower_in upper_in x = x)) ∧
    (∃ r, mainRun egEnv egOpts false = .ok r ∧
      Event.mapcalc (clampExpr (tmpName "r" "77") "r" "10" "110") ∈ r.events ∧
      clampExpr (tmpName "r" "77") "r" "10" "110" =
        "r_tmp_77 = if(r <= 10, 10,if(r >= 110, 110,r))") := by
  refine ⟨?_, ⟨_, by rfl, by decide, by decide⟩⟩
  intro lower_in upper_in x h
  unfold clampVal
  refine ⟨?_, ?_, ?_, ?_⟩
  · split_ifs with h1 h2
    · rw [min_eq_left (le_trans h1 h), max_eq_left h1]
    · rw [min_eq_right h2, max_eq_right h]
    · push_neg at h1 h2
      rw [min_eq_left h2.le, max_eq_right h1.le]
  · intro hx
    rw [if_pos hx]
  · intro hx
    split_ifs with h1
    · exact le_antisymm h (le_trans hx h1)
    · rfl
  · intro h1 h2
    rw [if_neg (not_le.mpr h1), if_neg (not_le.mpr h2)]

/-- C5 witness: the clamp characterization applied at thresholds 0/10 and
value 25. -/
theorem C5_clamp_semantics_witness :
    clampVal 0 10 25 = max 0 (min 25 10) :=
  (C5_clamp_semantics.1 0 10 25 (by norm_num)).1

/-- C6: when fewer than 2 of the three band names are distinct, the run stops
with the fatal too-few-bands validation error and an empty trace: no external
engine operation has been invoked. -/
theorem C6_band_check_first (env : Env) (opts : Options) (fflag : Bool)
    (h : [opts.red, opts.green, opts.blue].dedup.length < 2) :
    mainRun env opts fflag = .error ([], .fatal .tooFewBands) := by
  simp only [mainRun, if_pos h]

/-- C6 witness: three equal band names. -/
theorem C6_band_check_first_witness :
    mainRun egEnv ⟨"a", "a", "a", "2", "98", "s", "out", "0,255"⟩ false =
      .error ([], .fatal .tooFewBands) :=
  C6_band_check_first egEnv ⟨"a", "a", "a", "2", "98", "s", "out", "0,255"⟩ false (by decide)

/-- C3 counterexample: the claim says a string with more than two
comma-separated tokens is a fatal validation error, but `"0,255,300"` is
accepted — the code reads only items 0 and 1 of the split and ignores the
rest, and a full run with that range succeeds. -/
theorem C3_extra_tokens_accepted :
    checkOutputRange "0,255,300" = .ok ("0", "255") ∧
    (∃ r, mainRun egEnv ⟨"r", "g", "b", "2", "98", "s", "out", "0,255,300"⟩ false = .ok r ∧
      Event.group "out" ["r_s", "g_s", "b_s"] ∈ r.events) :=
  ⟨by decide, ⟨_, by rfl, by decide⟩⟩

/-- C3 amended: validation passes exactly when the split has at least two
tokens whose first two parse as integers with the second ≥ the first (tokens
past the second are ignored); an inverted range yields the error citing both
values, an unparseable one the format error, and a failed validation aborts
the run with the fatal error and an empty trace (given that the band check
before it passed). -/
theorem C3_range_validation :
    (∀ s, (∃ v, checkOutputRange s = .ok v) ↔
      ∃ t1 t2 rest lo up, pySplit ',' s = t1 :: t2 :: rest ∧
        pyInt? t1 = some lo ∧ pyInt? t2 = some up ∧ lo ≤ up) ∧
    checkOutputRange "255,0" = .error (.invertedRange 255 0) ∧
    checkOutputRange "abc,100" = .error .badRangeFormat ∧
    checkOutputRange "100" = .error .badRangeFormat ∧
    (∀ env opts fflag e, ¬ [opts.red, opts.green, opts.blue].dedup.length < 2 →
      checkOutputRange opts.output_range = .error e →
      mainRun env opts fflag = .error ([], .fatal e)) := by
  refine ⟨?_, by decide, by decide, by decide, ?_⟩
  · intro s
    constructor
    · rintro ⟨v, hv⟩
      unfold checkOutputRange at hv
      cases hsp : pySplit ',' s with
      | nil => rw [hsp] at hv; cases hv
      | cons t1 tail =>
        cases tail with
        | nil => rw [hsp] at hv; cases hv
        | cons t2 rest =>
          rw [hsp] at hv
          dsimp only at hv
          cases h1 : pyInt? t1 with
          | none => rw [h1] at hv; cases hv
          | some lo =>
            cases h2 : pyInt? t2 with
            | none => rw [h1, h2] at hv; cases hv
            | some up =>
              rw [h1, h2] at hv
              dsimp only at hv
              by_cases hlt : up < lo
              · rw [if_pos hlt] at hv; cases hv
              · exact ⟨t1, t2, rest, lo, up, rfl, h1, h2, not_lt.mp hlt⟩
    · rintro ⟨t1, t2, rest, lo, up, hsp, h1, h2, hle⟩
      refine ⟨(t1, t2), ?_⟩
      unfold checkOutputRange
      rw [hsp]
      dsimp only
      rw [h1, h2]
      dsimp only
      rw [if_neg (not_lt.mpr hle)]
  · intro env opts fflag e hb hce
    simp only [mainRun, if_neg hb, hce]

/-- C3 witness: the characterization accepts `"1,2"`, and the run-level
conjunct applied to an inverted range. -/
theorem C3_range_validation_witness :
    (∃ v, checkOutputRange "1,2" = .ok v) ∧
    mainRun egEnv ⟨"r", "g", "b", "2", "98", "s", "out", "255,0"⟩ false =
      .error ([], .fatal (.invertedRange 255 0)) :=
  ⟨(C3_range_validation.1 "1,2").mpr ⟨"1", "2", [], 1, 2, by decide, by decide, by decide,
      by norm_num⟩,
    C3_range_validation.2.2.2.2 egEnv ⟨"r", "g", "b", "2", "98", "s", "out", "255,0"⟩ false
      (.invertedRange 255 0) (by decide) (by decide)⟩

/-- The full outcome of the example run (`egEnv`, `egOpts`, flag unset). -/
def egResult : RunResult :=
  ⟨[.quantile "r" "2,98", .register "r_tmp_77",
    .mapcalc "r_tmp_77 = if(r <= 10, 10,if(r >= 110, 110,r))",
    .mapcalc "r_s = round(((r_tmp_77 - 10)/(110 - 10)) * 255 + 0)",
    .quantile "g" "2,98", .register "g_tmp_77",
    .mapcalc "g_tmp_77 = if(g <= 10, 10,if(g >= 110, 110,g))",
    .mapcalc "g_s = round(((g_tmp_77 - 10)/(110 - 10)) * 255 + 0)",
    .quantile "b" "2,98", .register "b_tmp_77",
    .mapcalc "b_tmp_77 = if(b <= 10, 10,if(b >= 110, 110,b))",
    .mapcalc "b_s = round(((b_tmp_77 - 10)/(110 - 10)) * 255 + 0)",
    .group "out" ["r_s", "g_s", "b_s"], .message "Created output group <out>"],
   ["r_tmp_77", "g_tmp_77", "b_tmp_77"], ["r_s", "g_s", "b_s"]⟩

theorem mainRun_eg : mainRun egEnv egOpts false = .ok egResult := by decide

/-- C9: the thresholds are taken as the raw substrings after the last `:` of
the first two keys of the parsed percentile output, in returned order, and
those exact strings are spliced into both the clamp expression and the
rescale expression (together with the raw output-range token strings); no
numeric parsing of the thresholds occurs anywhere in the model. -/
theorem C9_raw_threshold_splicing (env : Env) (opts : Options) (fflag : Bool)
    (r : RunResult) (h : mainRun env opts fflag = .ok r)
    (hk : ¬ (env.quantileKeys opts.red).length < 2) :
    ∃ lower_out upper_out,
      checkOutputRange opts.output_range = .ok (lower_out, upper_out) ∧
      Event.mapcalc (clampExpr (tmpName opts.red env.pid) opts.red
        (lastAfterColon ((env.quantileKeys opts.red).getD 0 ""))
        (lastAfterColon ((env.quantileKeys opts.red).getD 1 ""))) ∈ r.events ∧
      Event.mapcalc (rescaledName opts.red opts.suffix ++ " = " ++ rescRhs fflag
        (rescExprCore (tmpName opts.red env.pid)
          (lastAfterColon ((env.quantileKeys opts.red).getD 0 ""))
          (lastAfterColon ((env.quantileKeys opts.red).getD 1 ""))
          upper_out lower_out)) ∈ r.events :=
  mainRun_red_events h hk

/-- C9 witness: the splicing fact instantiated on the example run. -/
theorem C9_raw_threshold_splicing_witness :
    ∃ lower_out upper_out,
      checkOutputRange egOpts.output_range = .ok (lower_out, upper_out) ∧
      Event.mapcalc (clampExpr (tmpName egOpts.red egEnv.pid) egOpts.red
        (lastAfterColon ((egEnv.quantileKeys egOpts.red).getD 0 ""))
        (lastAfterColon ((egEnv.quantileKeys egOpts.red).getD 1 ""))) ∈ egResult.events ∧
      Event.mapcalc (rescaledName egOpts.red egOpts.suffix ++ " = " ++ rescRhs false
        (rescExprCore (tmpName egOpts.red egEnv.pid)
          (lastAfterColon ((egEnv.quantileKeys egOpts.red).getD 0 ""))
          (lastAfterColon ((egEnv.quantileKeys egOpts.red).getD 1 ""))
          upper_out lower_out)) ∈ egResult.events :=
  C9_raw_threshold_splicing egEnv egOpts false egResult mainRun_eg (by decide)

/-- C7: when both percentile keys carry the same after-colon value `v`, the
run performs no upfront equality check: it succeeds up to and including
submitting the rescale expression whose denominator is the literal text
`v - v`, i.e. zero, leaving the failure to the external evaluator. -/
theorem C7_degenerate_range_submitted (k1 k2 v pid : String)
    (h1 : lastAfterColon k1 = v) (h2 : lastAfterColon k2 = v) :
    ∃ r, mainRun ⟨fun _ => [k1, k2], pid⟩ egOpts false = .ok r ∧
      Event.mapcalc (rescaledName "r" "s" ++ " = " ++ rescRhs false
        (rescExprCore (tmpName "r" pid) v v "255" "0")) ∈ r.events ∧
      rescExprCore (tmpName "r" pid) v v "255" "0" =
        "((" ++ tmpName "r" pid ++ " - " ++ v ++ ")/(" ++ (v ++ " - " ++ v) ++
          ")) * " ++ "255" ++ " + " ++ "0" := by
  obtain ⟨r, hr⟩ : ∃ r, mainRun ⟨fun _ => [k1, k2], pid⟩ egOpts false = .ok r := ⟨_, by rfl⟩
  refine ⟨r, hr, ?_, ?_⟩
  · obtain ⟨lo, uo, hrange, -, hm⟩ := mainRun_red_events hr (by simp)
    have h0 : checkOutputRange egOpts.output_range = .ok ("0", "255") := by decide
    rw [hrange] at h0
    injection h0 with h0
    obtain ⟨h3, h4⟩ := Prod.mk.inj h0
    subst h3
    subst h4
    simp only [egOpts] at hm
    simp only [List.getD_cons_zero, List.getD_cons_succ, h1, h2] at hm
    exact hm
  · simp only [rescExprCore, String.append_assoc]

/-- C7 witness: keys `a:5` and `b:5` with pid `1`. -/
theorem C7_degenerate_range_submitted_witness :
    ∃ r, mainRun ⟨fun _ => ["a:5", "b:5"], "1"⟩ egOpts false = .ok r ∧
      Event.mapcalc (rescaledName "r" "s" ++ " = " ++ rescRhs false
        (rescExprCore (tmpName "r" "1") "5" "5" "255" "0")) ∈ r.events ∧
      rescExprCore (tmpName "r" "1") "5" "5" "255" "0" =
        "((" ++ tmpName "r" "1" ++ " - " ++ "5" ++ ")/(" ++ ("5" ++ " - " ++ "5") ++
          ")) * " ++ "255" ++ " + " ++ "0" :=
  C7_degenerate_range_submitted "a:5" "b:5" "5" "1" (by decide) (by decide)

/-- C8: the cleanup hook removes exactly the registered names that still
exist (in registration order), silently skipping the rest; and on any
successful run every registered name is a temporary-clamp name of the shape
`<band>_tmp_<pid>` for one of the three input bands — rescaled rasters, the
copied raster and the group are never registered. -/
theorem C8_cleanup_scope :
    (∀ (find_file : String → Bool) (rm : List String),
      cleanup find_file rm = (rm.filter find_file).map Event.remove) ∧
    (∀ (env : Env) (opts : Options) (fflag : Bool) (r : RunResult),
      mainRun env opts fflag = .ok r →
      ∀ n ∈ r.rmRasters, ∃ b, b ∈ [opts.red, opts.green, opts.blue] ∧
        n = tmpName b env.pid) := by
  constructor
  · intro f rm
    induction rm with
    | nil => rfl
    | cons a l ih =>
      simp only [cleanup, List.filter]
      cases hf : f a
      · simpa [hf] using ih
      · simpa [hf] using ih
  · intro env opts fflag r h n hn
    obtain ⟨-, lo, uo, st, ce, -, hrun, -, -, hrm⟩ := mainRun_ok_decomp h
    have hinit : tmpInvariant [opts.red, opts.green, opts.blue] env.pid ⟨[], [], []⟩ :=
      fun m hm => absurd hm (List.not_mem_nil m)
    have hinv := runBands_tmpInvariant [opts.red, opts.green, opts.blue]
      (fun x hx => hx) _ _ hrun hinit
    obtain ⟨rast, li, ui, s, t, hmem, he, -⟩ := hinv n (hrm ▸ hn)
    exact ⟨rast, hmem, he⟩

/-- C8 witness: the filter characterization on a concrete list, and the
registered-name shape on the example run. -/
theorem C8_cleanup_scope_witness :
    cleanup (fun n => n == "r_tmp_77") ["r_tmp_77", "g_tmp_77"] =
      [Event.remove "r_tmp_77"] ∧
    ∃ b, b ∈ [egOpts.red, egOpts.green, egOpts.blue] ∧ "g_tmp_77" = tmpName b egEnv.pid :=
  ⟨(C8_cleanup_scope.1 (fun n => n == "r_tmp_77") ["r_tmp_77", "g_tmp_77"]).trans (by decide),
   C8_cleanup_scope.2 egEnv egOpts false egResult mainRun_eg "g_tmp_77" (by decide)⟩

/-- C10: on any successful run, every name on the cleanup list was registered
in the trace immediately before the `r.mapcalc` command that creates the
temporary raster: the registration precedes the creating command, so the
temporary would be scheduled for removal even if its creation failed. -/
theorem C10_register_precedes_create :
    ∀ (env : Env) (opts : Options) (fflag : Bool) (r : RunResult),
      mainRun env opts fflag = .ok r →
      ∀ n ∈ r.rmRasters, ∃ rast lower_in upper_in s t,
        rast ∈ [opts.red, opts.green, opts.blue] ∧ n = tmpName rast env.pid ∧
        r.events = s ++ [Event.register n,
          Event.mapcalc (clampExpr n rast lower_in upper_in)] ++ t := by
  intro env opts fflag r h n hn
  obtain ⟨-, lo, uo, st, ce, -, hrun, -, hev, hrm⟩ := mainRun_ok_decomp h
  have hinit : tmpInvariant [opts.red, opts.green, opts.blue] env.pid ⟨[], [], []⟩ :=
    fun m hm => absurd hm (List.not_mem_nil m)
  have hinv := runBands_tmpInvariant [opts.red, opts.green, opts.blue]
    (fun x hx => hx) _ _ hrun hinit
  obtain ⟨rast, li, ui, s, t, hmem, he, hseq⟩ := hinv n (hrm ▸ hn)
  refine ⟨rast, li, ui, s,
    t ++ ce ++ [Event.group opts.output r.groupMembers,
      Event.message ("Created output group <" ++ opts.output ++ ">")], hmem, he, ?_⟩
  rw [hev, hseq]
  simp [List.append_assoc]

/-- C10 witness: the ordering fact instantiated on the example run. -/
theorem C10_register_precedes_create_witness :
    ∃ rast lower_in upper_in s t,
      rast ∈ [egOpts.red, egOpts.green, egOpts.blue] ∧
      "r_tmp_77" = tmpName rast egEnv.pid ∧
      egResult.events = s ++ [Event.register "r_tmp_77",
        Event.mapcalc (clampExpr "r_tmp_77" rast lower_in upper_in)] ++ t :=
  C10_register_precedes_create egEnv egOpts false egResult mainRun_eg "r_tmp_77" (by decide)

theorem reconcile_length {l : List String} {evs : List Event} {l2 : List String}
    (h : reconcile l = .ok (evs, l2)) : l2.length = l.length := by
  unfold reconcile at h
  split at h
  · cases hf : findDuplIndex l with
    | none => rw [hf] at h; cases h
    | some i =>
      rw [hf] at h
      dsimp only at h
      cases h
      simp
  · cases h
    rfl

/-- C2 counterexample: with bands `a`, `a`, `a_copied` and suffix `copied`
(an accepted input: two distinct band names), the duplicated rescaled name is
`a_copied` and its copy is named `a_copied_copied` — which is already the
third band's rescaled name, so the list submitted to group-creation has only
2 distinct members, not 3. -/
theorem C2_copied_name_collision :
    ∃ r, mainRun egEnv ⟨"a", "a", "a_copied", "2", "98", "copied", "out", "0,255"⟩ false =
        .ok r ∧
      r.groupMembers = ["a_copied", "a_copied_copied", "a_copied_copied"] ∧
      ¬ r.groupMembers.Nodup ∧ r.groupMembers.dedup.length = 2 :=
  ⟨_, by rfl, by decide, by decide, by decide⟩

/-- C2 amended: the reconciliation step yields 3 pairwise-distinct member
names whenever, in addition, no rescaled name extended with `_copied`
coincides with another entry of the list; and on every successful run the
list submitted to group-creation has exactly 3 entries (one per band). -/
theorem C2_reconcile_distinct :
    (∀ x y z : String, [x, y, z].dedup.length = 2 →
      (∀ w ∈ [x, y, z], (w ++ "_copied") ∉ [x, y, z]) →
      ∃ evs l2, reconcile [x, y, z] = .ok (evs, l2) ∧ l2.length = 3 ∧ l2.Nodup) ∧
    (∀ (env : Env) (opts : Options) (fflag : Bool) (r : RunResult),
      mainRun env opts fflag = .ok r → r.groupMembers.length = 3) := by
  constructor
  · intro x y z h2 hc
    by_cases hxy : x = y
    · subst hxy
      by_cases hxz : x = z
      · subst hxz
        simp [List.dedup_cons_of_mem] at h2
      · have hd : ([x, x, z] : List String).dedup = [x, z] := by
          simp [List.dedup_cons_of_mem, List.dedup_cons_of_not_mem, hxz]
        have hf : findDuplIndex [x, x, z] = some 1 := by
          simp [findDuplIndex, findDuplAux, hxz, Ne.symm hxz]
        refine ⟨[Event.copy x (x ++ "_copied")], [x, x ++ "_copied", z],
          by unfold reconcile; rw [hd, hf]; simp [List.set], by simp, ?_⟩
        have hcx := hc x (by simp)
        simp only [List.mem_cons, List.not_mem_nil, or_false, not_or] at hcx
        simp [List.nodup_cons, hxz, hcx.1, Ne.symm hcx.1, Ne.symm hcx.2.2, hcx.2.2]
    · by_cases hyz : y = z
      · subst hyz
        have hd : ([x, y, y] : List String).dedup = [x, y] := by
          simp [List.dedup_cons_of_mem, List.dedup_cons_of_not_mem, hxy]
        have hf : findDuplIndex [x, y, y] = some 2 := by
          simp [findDuplIndex, findDuplAux, hxy, Ne.symm hxy]
        refine ⟨[Event.copy y (y ++ "_copied")], [x, y, y ++ "_copied"],
          by unfold reconcile; rw [hd, hf]; simp [List.set], by simp, ?_⟩
        have hcy := hc y (by simp)
        simp only [List.mem_cons, List.not_mem_nil, or_false, not_or] at hcy
        simp [List.nodup_cons, hxy, Ne.symm hcy.1, Ne.symm hcy.2.1, hcy.1, hcy.2.1]
      · by_cases hxz : x = z
        · subst hxz
          have hd : ([x, y, x] : List String).dedup = [y, x] := by
            simp [List.dedup_cons_of_mem, List.dedup_cons_of_not_mem, hxy, Ne.symm hxy]
          have hf : findDuplIndex [x, y, x] = some 2 := by
            simp [findDuplIndex, findDuplAux, hxy, Ne.symm hxy]
          refine ⟨[Event.copy x (x ++ "_copied")], [x, y, x ++ "_copied"],
            by unfold reconcile; rw [hd, hf]; simp [List.set], by simp, ?_⟩
          have hcx := hc x (by simp)
          simp only [List.mem_cons, List.not_mem_nil, or_false, not_or] at hcx
          simp [List.nodup_cons, hxy, Ne.symm hcx.1, Ne.symm hcx.2.1, hcx.1, hcx.2.1, hyz]
        · have hd : ([x, y, z] : List String).dedup = [x, y, z] := by
            simp [List.dedup_cons_of_not_mem, hxy, hxz, hyz]
          rw [hd] at h2
          simp at h2
  · intro env opts fflag r h
    obtain ⟨-, lo, uo, st, ce, -, hrun, hrec, -, -⟩ := mainRun_ok_decomp h
    have h3 := runBands_reclassified_length [opts.red, opts.green, opts.blue] _ _ hrun
    simp only [List.length_nil, List.length_cons, Nat.zero_add] at h3
    rw [reconcile_length hrec, h3]

/-- C2 witness: reconciliation of `[r_s, r_s, g_s]`, and the member count of
the example run. -/
theorem C2_reconcile_distinct_witness :
    (∃ evs l2, reconcile ["r_s", "r_s", "g_s"] = .ok (evs, l2) ∧
      l2.length = 3 ∧ l2.Nodup) ∧
    egResult.groupMembers.length = 3 :=
  ⟨C2_reconcile_distinct.1 "r_s" "r_s" "g_s" (by decide) (by decide),
   C2_reconcile_distinct.2 egEnv egOpts false egResult mainRun_eg⟩

end IRescaleRGB
